import Mathlib

/-!
Verification of the Inity project scaffolder (smartenv): a shallow embedding
of the package installer, project-creation orchestrator, environment-file
generator, version discovery and package-registry discovery layers, with
theorems about their behaviour.

External effects (subprocess invocations, HTTP queries, the filesystem and
the random source) are passed in as explicit oracle functions; everything
else is translated directly from the source.
-/

namespace Inity

/-! ## Python string primitives, modelled on character lists -/

/-- Does the character list `s` contain `pat` as a contiguous run?
Models the Python `pat in s` substring test. -/
def containsSub (pat : List Char) : List Char → Bool
  | [] => pat.isEmpty
  | c :: rest => pat.isPrefixOf (c :: rest) || containsSub pat rest

/-- Python `pat in s` on strings. -/
def strContains (s pat : String) : Bool := containsSub pat.data s.data

/-- Python `s.startswith(pat)`. -/
def strStartsWith (s pat : String) : Bool := pat.data.isPrefixOf s.data

/-- The part of `s` before the first occurrence of `pat` (all of `s` when
`pat` does not occur): Python `s.split(pat)[0]` for non-empty `pat`. -/
def takeBefore (pat : List Char) : List Char → List Char
  | [] => []
  | c :: rest => if pat.isPrefixOf (c :: rest) then [] else c :: takeBefore pat rest

/-- Python `s.split(pat)[0]`. -/
def strSplitHead (s pat : String) : String := String.mk (takeBefore pat.data s.data)

/-- Delete every occurrence of `pat` from `s`:
Python `s.replace(pat, "")`. -/
def removeOccs (pat : List Char) : List Char → List Char
  | [] => []
  | c :: rest =>
    if pat.isPrefixOf (c :: rest) then removeOccs pat (rest.drop (pat.length - 1))
    else c :: removeOccs pat rest
  termination_by l => l.length
  decreasing_by
    · simp only [List.length_cons]
      have := List.length_drop (pat.length - 1) rest
      omega
    · simp [Nat.lt_succ_self]

/-- Python `s.replace(pat, "")`. -/
def strRemove (s pat : String) : String := String.mk (removeOccs pat.data s.data)

/-- The Python whitespace characters stripped by `str.strip()`. -/
def pyIsSpace (c : Char) : Bool :=
  c = ' ' || c = '\t' || c = '\n' || c = '\r' || c = Char.ofNat 11 || c = Char.ofNat 12

/-- Python `s.strip()`. -/
def pyStrip (s : String) : String :=
  String.mk (((s.data.dropWhile pyIsSpace).reverse.dropWhile pyIsSpace).reverse)

/-- ASCII lower-casing, as Python `s.lower()` acts on ASCII text. -/
def asciiLower (s : String) : String :=
  String.mk (s.data.map fun c =>
    if 65 ≤ c.toNat && c.toNat ≤ 90 then Char.ofNat (c.toNat + 32) else c)

/-- Code-point lexicographic comparison of character lists — the order
Python uses to sort strings. -/
def lexLe : List Char → List Char → Bool
  | [], _ => true
  | _ :: _, [] => false
  | a :: as, b :: bs =>
    if a.toNat < b.toNat then true
    else if b.toNat < a.toNat then false
    else lexLe as bs

/-- Python string `<=`, by code points. -/
def strLe (a b : String) : Bool := lexLe a.data b.data

theorem lexLe_refl (l : List Char) : lexLe l l = true := by
  induction l with
  | nil => rfl
  | cons a as ih => simp [lexLe, ih]

theorem lexLe_total (a b : List Char) : (lexLe a b || lexLe b a) = true := by
  induction a generalizing b with
  | nil => simp [lexLe]
  | cons x xs ih =>
    cases b with
    | nil => simp [lexLe]
    | cons y ys =>
      by_cases h1 : x.toNat < y.toNat
      · simp [lexLe, h1]
      · by_cases h2 : y.toNat < x.toNat
        · simp [lexLe, h1, h2]
        · simp only [lexLe, if_neg h1, if_neg h2]
          exact ih ys

theorem lexLe_trans (a b c : List Char)
    (hab : lexLe a b = true) (hbc : lexLe b c = true) : lexLe a c = true := by
  induction a generalizing b c with
  | nil => simp [lexLe]
  | cons x xs ih =>
    cases b with
    | nil => simp [lexLe] at hab
    | cons y ys =>
      cases c with
      | nil => simp [lexLe] at hbc
      | cons z zs =>
        simp only [lexLe] at hab hbc ⊢
        by_cases hxy : x.toNat < y.toNat
        · by_cases hyz : y.toNat < z.toNat
          · have : x.toNat < z.toNat := Nat.lt_trans hxy hyz
            simp [this]
          · by_cases hzy : z.toNat < y.toNat
            · simp [hyz, hzy] at hbc
            · have hyzeq : y.toNat = z.toNat := Nat.le_antisymm (Nat.le_of_not_lt hzy) (Nat.le_of_not_lt hyz)
              have : x.toNat < z.toNat := hyzeq ▸ hxy
              simp [this]
        · by_cases hyx : y.toNat < x.toNat
          · simp [hxy, hyx] at hab
          · have hxyeq : x.toNat = y.toNat := Nat.le_antisymm (Nat.le_of_not_lt hyx) (Nat.le_of_not_lt hxy)
            rw [if_neg hxy, if_neg hyx] at hab
            by_cases hyz : y.toNat < z.toNat
            · have : x.toNat < z.toNat := hxyeq ▸ hyz
              simp [this]
            · by_cases hzy : z.toNat < y.toNat
              · simp [hyz, hzy] at hbc
              · have hyzeq : y.toNat = z.toNat := Nat.le_antisymm (Nat.le_of_not_lt hzy) (Nat.le_of_not_lt hyz)
                rw [if_neg hyz, if_neg hzy] at hbc
                have h1 : ¬ x.toNat < z.toNat := by omega
                have h2 : ¬ z.toNat < x.toNat := by omega
                simp only [if_neg h1, if_neg h2]
                exact ih ys zs hab hbc

theorem strLe_total (a b : String) : (strLe a b || strLe b a) = true :=
  lexLe_total a.data b.data

theorem strLe_trans (a b c : String)
    (hab : strLe a b = true) (hbc : strLe b c = true) : strLe a c = true :=
  lexLe_trans a.data b.data c.data hab hbc

/-- Python string `<=` as a proposition, for sorting. -/
def pyLe (a b : String) : Prop := strLe a b = true

/-- Python string `>=` as a proposition, for descending sorts. -/
def pyGe (a b : String) : Prop := strLe b a = true

instance : DecidableRel pyLe := fun a b => by unfold pyLe; infer_instance

instance : DecidableRel pyGe := fun a b => by unfold pyGe; infer_instance

instance : IsTotal String pyLe :=
  ⟨fun a b => by
    have := strLe_total a b
    rcases Bool.or_eq_true_iff.mp this with h | h
    · exact Or.inl h
    · exact Or.inr h⟩

instance : IsTrans String pyLe :=
  ⟨fun a b c hab hbc => strLe_trans a b c hab hbc⟩

instance : IsTotal String pyGe :=
  ⟨fun a b => by
    have := strLe_total b a
    rcases Bool.or_eq_true_iff.mp this with h | h
    · exact Or.inl h
    · exact Or.inr h⟩

instance : IsTrans String pyGe :=
  ⟨fun a b c hab hbc => strLe_trans c b a hbc hab⟩

/-! ## PackageManager (src/smartenv/utils/package_manager.py)

Subprocess execution is an oracle `exec : List String → Outcome` mapping the
exact argument vector to what `subprocess.run` did.  `sysExecutable` is
Python's `sys.executable` and `isWindows` is `os.name == "nt"`. -/

/-- What a single `subprocess.run` of a pip command did: a zero exit
(`success`), a non-zero exit (`procError`, i.e. `CalledProcessError`), a
timeout after the 300-second bound (`timedOut`), or some other exception
propagating out of `_install_single_package` (`raised`, caught by the
per-package `except` in `install_packages`). -/
inductive Outcome
  | success
  | procError
  | timedOut
  | raised
deriving DecidableEq, Repr

/-- The keyword options of `PackageManager.install_packages`. -/
structure InstallOpts where
  global_scope : Bool := false
  environment : Option String := none
  from_git : Bool := false
  editable : Bool := false
  upgrade : Bool := false
  force : Bool := false
  extras : Bool := false
deriving DecidableEq, Repr

/-- `str(Path(base) / sub)`: path join with the host separator. -/
def joinPath (isWindows : Bool) (base sub : String) : String :=
  base ++ (if isWindows then "\x5c" else "/") ++ sub

/-- The pip executable resolution shared by `_install_single_package` and
`_get_pip_command`: four mutually exclusive cases keyed on the
`environment` string and the `global_scope` flag. -/
def pipCmdBase (sysExecutable : String) (isWindows : Bool)
    (global_scope : Bool) (environment : Option String) : List String :=
  match environment with
  | some env =>
    if env ≠ "" && strStartsWith env "conda:" then
      ["conda", "run", "-n", strRemove env "conda:", "pip"]
    else if env ≠ "" && strStartsWith env "venv:" then
      let venvPath := strRemove env "venv:"
      if isWindows then [joinPath true (joinPath true venvPath "Scripts") "pip.exe"]
      else [joinPath false (joinPath false venvPath "bin") "pip"]
    else if global_scope then [sysExecutable, "-m", "pip"]
    else ["pip"]
  | none =>
    if global_scope then [sysExecutable, "-m", "pip"] else ["pip"]

/-- The full argument vector `_install_single_package` passes to
`subprocess.run` for one package. -/
def buildInstallCmd (sysExecutable : String) (isWindows : Bool)
    (o : InstallOpts) (package : String) : List String :=
  let cmd := pipCmdBase sysExecutable isWindows o.global_scope o.environment ++ ["install"]
  let cmd := if o.upgrade then cmd ++ ["--upgrade"] else cmd
  let cmd := if o.force then cmd ++ ["--force-reinstall", "--no-deps"] else cmd
  if o.from_git || strContains package "git+" then
    let cmd := if o.editable && !(strStartsWith package "-e") then cmd ++ ["-e"] else cmd
    cmd ++ [package]
  else
    let pkg := if o.extras && !(strContains package "[") then package ++ "[all]" else package
    cmd ++ [pkg]

/-- One entry of the per-package progress report of `install_packages`. -/
structure Attempt where
  package : String
  cmd : List String
  outcome : Outcome
deriving DecidableEq, Repr

/-- The observable behaviour of one `install_packages` call: the ordered
per-package invocations with their outcomes, and the returned Bool
(`success_count == total_count`). -/
structure InstallRun where
  attempts : List Attempt
  allOk : Bool
deriving DecidableEq, Repr

/-- `PackageManager.install_packages`: iterate over the batch in order,
invoking pip once per package; count a success only when the single
install returned True; return whether every package succeeded. -/
def install_packages (exec : List String → Outcome) (sysExecutable : String)
    (isWindows : Bool) (packages : List String) (o : InstallOpts) : InstallRun :=
  let attempts := packages.map fun p =>
    let cmd := buildInstallCmd sysExecutable isWindows o p
    { package := p, cmd := cmd, outcome := exec cmd : Attempt }
  { attempts := attempts
    allOk := attempts.countP (fun a => a.outcome == Outcome.success) == packages.length }

/-- `PackageManager.update_packages`: delegates to `install_packages` with
`upgrade=True` and every other option left at its default. -/
def update_packages (exec : List String → Outcome) (sysExecutable : String)
    (isWindows : Bool) (packages : List String) (global_scope : Bool)
    (environment : Option String) : InstallRun :=
  install_packages exec sysExecutable isWindows packages
    { global_scope := global_scope, environment := environment, upgrade := true }

/-- `PackageManager.uninstall_packages`: per-package `pip uninstall -y`,
each reported independently; returns whether all succeeded. -/
def uninstall_packages (exec : List String → Outcome) (sysExecutable : String)
    (isWindows : Bool) (packages : List String) (global_scope : Bool)
    (environment : Option String) : Bool :=
  let base := pipCmdBase sysExecutable isWindows global_scope environment
  (packages.countP fun p => exec (base ++ ["uninstall", p, "-y"]) == Outcome.success)
    == packages.length

/-! ## EnvGenerator (src/smartenv/utils/env_generator.py)

The random source `secrets.choice` is an oracle `choice` giving, for each
variable index and character position, the picked index into the alphabet. -/

/-- `string.ascii_letters + string.digits + "!@#$%^&*"` — the alphabet of
`EnvGenerator._generate_secret_key`. -/
def secretAlphabet : List Char :=
  "abcdefghijklmnopqrstuvwxyzABCDEFGHIJKLMNOPQRSTUVWXYZ0123456789!@#$%^&*".toList

/-- The placeholder values `generate_env_file` replaces. -/
def placeholderValues : List String :=
  ["your-secret-key-here", "django-insecure-change-me",
   "django-insecure-change-me-in-production"]

/-- `EnvGenerator._generate_secret_key`: a string of `len` characters drawn
from `secretAlphabet` by the random source. -/
def generate_secret_key (choice : Nat → Fin secretAlphabet.length)
    (len : Nat) : String :=
  String.mk ((List.range len).map fun i => secretAlphabet.get (choice i))

/-- Is the variable name flagged for secret generation:
`"secret" in key.lower() or "key" in key.lower()`. -/
def isSecretName (key : String) : Bool :=
  strContains (asciiLower key) "secret" || strContains (asciiLower key) "key"

/-- The value `generate_env_file` writes for one variable. -/
def writtenEnvValue (choice : Nat → Fin secretAlphabet.length)
    (key value : String) : String :=
  if isSecretName key && placeholderValues.contains value then
    generate_secret_key choice 50
  else value

/-- `EnvGenerator.generate_env_file`: the full text written to `.env`,
a comment header, a blank line, then one `KEY=value` line per variable in
iteration order, with a trailing newline.  `choice i` is the random source
used for the `i`-th variable. -/
def generate_env_file (choice : Nat → Nat → Fin secretAlphabet.length)
    (env_vars : List (String × String)) : String :=
  let lines := ["# Environment variables for the project", ""] ++
    env_vars.enum.map fun p => p.2.1 ++ "=" ++ writtenEnvValue (choice p.1) p.2.1 p.2.2
  String.intercalate "\n" lines ++ "\n"

/-! ## PythonVersionManager.get_available_versions
(src/smartenv/utils/python_version.py)

The host is an oracle record of what each probing source reports, in the
order the subprocess probes return them. -/

/-- What the host reports to each discovery source. -/
structure VersionHost where
  current : String
  systemVersions : List (String × String)
  condaAvailable : Bool
  condaVersions : List (String × String)
  pyenvAvailable : Bool
  pyenvVersions : List String

/-- `versions[k] = v` guarded by `if k not in versions`: insert at the end
only when the key is absent (Python dict insertion order). -/
def insertIfAbsent (m : List (String × String)) (k v : String) :
    List (String × String) :=
  if m.any (fun e => e.1 == k) then m else m ++ [(k, v)]

/-- The `versions` dict built by `get_available_versions`: current system
first, then other system interpreters, then conda (when available), then
pyenv (when available), each guarded by absence of the version key. -/
def availableVersionsMap (h : VersionHost) : List (String × String) :=
  let m := [(h.current, h.current ++ " (current system)")]
  let m := h.systemVersions.foldl
    (fun m e => insertIfAbsent m e.1 (e.1 ++ " (system: " ++ e.2 ++ ")")) m
  let m := if h.condaAvailable then
      h.condaVersions.foldl
        (fun m e => insertIfAbsent m e.1 (e.1 ++ " (conda: " ++ e.2 ++ ")")) m
    else m
  if h.pyenvAvailable then
    h.pyenvVersions.foldl (fun m v => insertIfAbsent m v (v ++ " (pyenv)")) m
  else m

/-- `PythonVersionManager.get_available_versions`: the labels of the
`versions` dict in insertion order. -/
def get_available_versions (h : VersionHost) : List String :=
  (availableVersionsMap h).map (fun e => e.2)

/-! ## PackageSearcher (src/smartenv/utils/package_search.py)

The registry is an oracle: for `validate`, what the per-package JSON
endpoint returned (an HTTP status, or any raised exception); for version
listing, the parsed `releases` map (version → number of release files) or
`none` when the query or the parsing raised. -/

/-- `package.split("==")[0].split(">=")[0].split("<=")[0].split("~=")[0].split("!=")[0].strip()`. -/
def stripVersionQualifier (package : String) : String :=
  pyStrip (strSplitHead (strSplitHead (strSplitHead (strSplitHead
    (strSplitHead package "==") ">=") "<=") "~=") "!=")

/-- Result of one registry lookup: an HTTP response status, or any raised
exception (network error, timeout, bad URL, parse failure). -/
inductive LookupResult
  | ok (status : Nat)
  | failed
deriving DecidableEq, Repr

/-- `PackageSearcher._validate_single_package`: strip the version
qualifier, query the registry, accept on status 200, and accept whenever
the lookup raised. -/
def validate_single_package (registry : String → LookupResult)
    (package : String) : Bool :=
  match registry (stripVersionQualifier package) with
  | .ok status => status == 200
  | .failed => true

/-- `PackageSearcher.validate_packages`: partition the batch into valid
and invalid, preserving order. -/
def validate_packages (registry : String → LookupResult)
    (packages : List String) : List String × List String :=
  (packages.filter (validate_single_package registry),
   packages.filter fun p => !validate_single_package registry p)

/-- `PackageSearcher.get_package_versions_realtime`: on a parsed response,
keep only versions with at least one release file, sort descending by
string comparison, cap at `limit`; on any failure return `["latest"]`. -/
def get_package_versions_realtime (response : Option (List (String × Nat)))
    (limit : Nat) : List String :=
  match response with
  | none => ["latest"]
  | some releases =>
    let versions := (releases.filter fun e => e.2 != 0).map (fun e => e.1)
    (List.insertionSort pyGe versions).take limit

/-! ## ProjectCreator (src/smartenv/core/project_creator.py) -/

/-- `sorted(set(l))` for Python strings: the distinct members, sorted by
code-point order. -/
def sortedSet (l : List String) : List String := List.insertionSort pyLe l.dedup

/-- `ProjectCreator._create_requirements_files`, main requirements file:
`none` when there are no dependencies at all (no file written), otherwise
the text `"\n".join(sorted(set(template.dependencies + additional_packages))) + "\n"`. -/
def requirements_content (templateDeps additionalPackages : List String) :
    Option String :=
  let all_deps := templateDeps ++ additionalPackages
  if all_deps.isEmpty then none
  else some (String.intercalate "\n" (sortedSet all_deps) ++ "\n")

/-- The two per-package collections built by
`ProjectCreator._auto_install_dependencies` (and by
`_install_with_conda_run` on the conda path). -/
structure AutoInstallOutcome where
  successful : List String
  failed : List String
deriving DecidableEq, Repr

/-- `ProjectCreator._auto_install_dependencies`: empty batch returns
immediately; the conda path loops per package; the venv path first needs a
pip executable and a successful `pip install --upgrade pip`, then loops
per package appending to `successful_installs` or `failed_installs`. -/
def auto_install_dependencies (useConda pipFound pipUpgradeOk : Bool)
    (installOk : String → Bool) (dependencies : List String) :
    AutoInstallOutcome :=
  if dependencies.isEmpty then { successful := [], failed := [] }
  else if useConda then
    { successful := dependencies.filter installOk
      failed := dependencies.filter fun d => !installOk d }
  else if !pipFound then { successful := [], failed := [] }
  else if !pipUpgradeOk then { successful := [], failed := [] }
  else
    { successful := dependencies.filter installOk
      failed := dependencies.filter fun d => !installOk d }

/-- The stages of `ProjectCreator.create`, in pipeline order. -/
inductive Stage
  | dirCreated
  | envProvisioned
  | filesGenerated
  | requirementsWritten
  | depsInstalled
  | devDepsInstalled
  | gitInitialized
deriving DecidableEq, Repr

/-- The canonical full stage order of the pipeline. -/
def canonicalStages : List Stage :=
  [.dirCreated, .envProvisioned, .filesGenerated, .requirementsWritten,
   .depsInstalled, .devDepsInstalled, .gitInitialized]

/-- The exceptions `ProjectCreator.create` can raise. -/
inductive CreateError
  | mkdirOSError
  | dirNotCreated
  | templateNotFound
  | condaCreateFailed
  | venvCreateFailed
deriving DecidableEq, Repr

/-- The constructor arguments of `ProjectCreator` that steer `create`. -/
structure CreateConfig where
  existing_dir : Bool
  use_conda : Bool
  create_venv : Bool
  init_git : Bool
  /-- `TemplateRegistry.get_template` result: `none` when the template is
  unknown, otherwise its dependency list. -/
  template : Option (List String)
  additional_packages : List String
  dev_dependencies : List String

/-- Host/filesystem facts `create` observes. -/
structure CreateHost where
  /-- The target directory already exists before `create` runs. -/
  dirAlreadyExists : Bool
  /-- `Path.mkdir(parents=True, exist_ok=True)` raises an `OSError`
  (consulted only when the directory does not already exist). -/
  mkdirRaises : Bool
  /-- After a non-raising `mkdir`, the directory exists. -/
  mkdirCreates : Bool
  /-- The requested conda environment name is already registered. -/
  condaEnvExists : Bool
  /-- `conda create` exits zero. -/
  condaCreateOk : Bool
  /-- `python -m venv` leaves a usable environment behind. -/
  venvOk : Bool

/-- `if b then [s] else []`: an optional pipeline stage. -/
def optStage (b : Bool) (s : Stage) : List Stage := if b then [s] else []

/-- The environment-provisioning step of `create`: conda reuse-or-create
when `use_conda`, venv creation when `create_venv`, nothing otherwise. -/
def envStep (cfg : CreateConfig) (host : CreateHost) :
    Except CreateError (List Stage) :=
  if cfg.use_conda then
    if host.condaEnvExists then .ok [.envProvisioned]
    else if host.condaCreateOk then .ok [.envProvisioned]
    else .error .condaCreateFailed
  else if cfg.create_venv then
    if host.venvOk then .ok [.envProvisioned] else .error .venvCreateFailed
  else .ok []

/-- `ProjectCreator.create`: directory creation and verification, template
lookup, optional environment provisioning, file generation, requirements
writing, best-effort dependency installation (gated on `create_venv` and a
non-empty batch; never raises), and git initialization last (its failures
are swallowed inside `GitUtils.init_repository`).  Returns the ordered
trace of completed stages, or the first fatal error. -/
def create (cfg : CreateConfig) (host : CreateHost) :
    Except CreateError (List Stage) :=
  if !cfg.existing_dir && !host.dirAlreadyExists && host.mkdirRaises then
    .error .mkdirOSError
  else if !(host.dirAlreadyExists || (!cfg.existing_dir && host.mkdirCreates)) then
    .error .dirNotCreated
  else
    match cfg.template with
    | none => .error .templateNotFound
    | some tmplDeps =>
      match envStep cfg host with
      | .error e => .error e
      | .ok envStages =>
        .ok ([Stage.dirCreated] ++ envStages
          ++ [Stage.filesGenerated, Stage.requirementsWritten]
          ++ optStage (cfg.create_venv && !(tmplDeps ++ cfg.additional_packages).isEmpty)
               .depsInstalled
          ++ optStage (cfg.create_venv && !cfg.dev_dependencies.isEmpty)
               .devDepsInstalled
          ++ optStage cfg.init_git .gitInitialized)

/-! ## Concrete fixtures used to instantiate the theorems -/

/-- Subprocess oracle for the two-package scenario: any invocation whose
argument vector names `pkg-a` exits non-zero, everything else succeeds. -/
def execScenario : List String → Outcome :=
  fun cmd => if cmd.contains "pkg-a" then Outcome.procError else Outcome.success

/-- Install oracle under which only the package `good` installs. -/
def installOkW : String → Bool := fun d => d == "good"

/-- A registry where every lookup raises (network unreachable). -/
def registryDown : String → LookupResult := fun _ => LookupResult.failed

/-- A fixed random source always picking the first alphabet character. -/
def choiceZero : Nat → Nat → Fin secretAlphabet.length := fun _ _ => ⟨0, by decide⟩

/-- A plain venv-backed project configuration. -/
def cfgW : CreateConfig :=
  { existing_dir := false, use_conda := false, create_venv := true,
    init_git := true, template := some ["flask"],
    additional_packages := ["requests"], dev_dependencies := [] }

/-- A host where the target directory is created successfully. -/
def hostW : CreateHost :=
  { dirAlreadyExists := false, mkdirRaises := false, mkdirCreates := true,
    condaEnvExists := false, condaCreateOk := false, venvOk := true }

/-- A host where the target directory already exists. -/
def hostExisting : CreateHost :=
  { dirAlreadyExists := true, mkdirRaises := false, mkdirCreates := false,
    condaEnvExists := false, condaCreateOk := false, venvOk := true }

/-- A host whose current interpreter and one conda environment both report
Python 3.11.7. -/
def versionHostW : VersionHost :=
  { current := "3.11.7", systemVersions := [], condaAvailable := true,
    condaVersions := [("3.11.7", "ml-env")], pyenvAvailable := false,
    pyenvVersions := [] }

/-! ## Theorems -/

/-- C3: `update_packages(packages, scope)` is extensionally equal to
`install_packages(packages, scope, upgrade=true)`: for every subprocess
oracle, host, package list and scope (global flag and environment) the two
calls produce the identical run — the same per-package installer
invocations in the same order with the same outcomes, and the same
returned boolean. -/
theorem update_packages_eq_install_upgrade
    (exec : List String → Outcome) (sysExecutable : String) (isWindows : Bool)
    (packages : List String) (global_scope : Bool) (environment : Option String) :
    update_packages exec sysExecutable isWindows packages global_scope environment =
      install_packages exec sysExecutable isWindows packages
        { global_scope := global_scope, environment := environment, upgrade := true } :=
  rfl

/-- C1: `install_packages` invokes pip once per package, in batch order
(the attempt list maps one-to-one onto the input); the returned boolean is
true exactly when every package's invocation succeeded; and in the
two-package scenario where `pkg-a` exits non-zero while `pkg-b` succeeds,
the batch returns false while `pkg-b` is still attempted and reported
installed. -/
theorem install_packages_per_package_isolation
    (exec : List String → Outcome) (sysExecutable : String) (isWindows : Bool)
    (packages : List String) (o : InstallOpts) :
    ((install_packages exec sysExecutable isWindows packages o).attempts.map
      Attempt.package = packages) ∧
    ((install_packages exec sysExecutable isWindows packages o).allOk = true ↔
      ∀ p ∈ packages,
        exec (buildInstallCmd sysExecutable isWindows o p) = Outcome.success) ∧
    (exec (buildInstallCmd sysExecutable isWindows o "pkg-a") = Outcome.procError →
      exec (buildInstallCmd sysExecutable isWindows o "pkg-b") = Outcome.success →
      (install_packages exec sysExecutable isWindows ["pkg-a", "pkg-b"] o).allOk = false ∧
      (install_packages exec sysExecutable isWindows ["pkg-a", "pkg-b"] o).attempts =
        [{ package := "pkg-a",
           cmd := buildInstallCmd sysExecutable isWindows o "pkg-a",
           outcome := Outcome.procError },
         { package := "pkg-b",
           cmd := buildInstallCmd sysExecutable isWindows o "pkg-b",
           outcome := Outcome.success }]) := by
  refine ⟨?_, ?_, ?_⟩
  · simp [install_packages, Function.comp_def]
  · have hcount : (install_packages exec sysExecutable isWindows packages o).allOk = true ↔
        (packages.countP fun p =>
          exec (buildInstallCmd sysExecutable isWindows o p) == Outcome.success) =
          packages.length := by
      simp [install_packages, List.countP_map, Function.comp]
    rw [hcount, List.countP_eq_length]
    simp
  · intro ha hb
    constructor
    · simp only [install_packages, List.map_cons, List.map_nil, ha, hb,
        List.countP_cons, List.countP_nil, List.length_cons, List.length_nil]
      rfl
    · simp [install_packages, ha, hb]

/-- Witness for C1: the scenario instantiated with the concrete oracle
`execScenario` on a plain current-environment scope. -/
theorem install_packages_per_package_isolation_witness :
    (install_packages execScenario "python3" false ["pkg-a", "pkg-b"] {}).allOk = false ∧
    (install_packages execScenario "python3" false ["pkg-a", "pkg-b"] {}).attempts =
      [{ package := "pkg-a",
         cmd := buildInstallCmd "python3" false {} "pkg-a",
         outcome := Outcome.procError },
       { package := "pkg-b",
         cmd := buildInstallCmd "python3" false {} "pkg-b",
         outcome := Outcome.success }] :=
  (install_packages_per_package_isolation execScenario "python3" false
    ["pkg-a", "pkg-b"] {}).2.2 (by decide) (by decide)

/-- Count of a filter and of its complementary filter add up to the
length. -/
theorem length_filter_pair {α : Type} (p : α → Bool) (l : List α) :
    (l.filter p).length + (l.filter fun a => !p a).length = l.length := by
  induction l with
  | nil => rfl
  | cons a t ih =>
    by_cases h : p a = true
    · simp [List.filter_cons, h]
      omega
    · have hh : p a = false := by simpa using h
      simp [List.filter_cons, hh]
      omega

/-- C4 counterexample: when the preliminary `pip install --upgrade pip`
exits non-zero, `_auto_install_dependencies` aborts via its outer `except`
before the per-package loop, so for the one-package batch `["requests"]`
both collections stay empty and `len(successful) + len(failed)` is 0, not
1: the package is in neither collection. -/
theorem auto_install_pip_upgrade_failure_drops_batch :
    auto_install_dependencies false true false (fun _ => true) ["requests"] =
      { successful := [], failed := [] } ∧
    ¬ ((auto_install_dependencies false true false (fun _ => true)
          ["requests"]).successful.length +
        (auto_install_dependencies false true false (fun _ => true)
          ["requests"]).failed.length =
        (["requests"] : List String).length) := by
  constructor
  · rfl
  · decide

/-- C4 (amended): whenever the auto-install step reaches its per-package
loop — on the conda path, or on the venv path once a pip executable was
found and the pip self-upgrade succeeded — every input package lands in
exactly one of the two collections: the lengths add up to the batch
length, the collections are disjoint, every input package is in one of
them, and each entry of `failed` (resp. `successful`) is an input package
whose individual installation failed (resp. succeeded).  When the loop is
not reached (no pip executable, or pip self-upgrade failure) both
collections are empty. -/
theorem auto_install_partitions_when_loop_reached
    (useConda pipFound pipUpgradeOk : Bool) (installOk : String → Bool)
    (dependencies : List String)
    (h : useConda = true ∨ (pipFound = true ∧ pipUpgradeOk = true)) :
    (auto_install_dependencies useConda pipFound pipUpgradeOk installOk
        dependencies).successful.length +
      (auto_install_dependencies useConda pipFound pipUpgradeOk installOk
        dependencies).failed.length = dependencies.length ∧
    (∀ d ∈ (auto_install_dependencies useConda pipFound pipUpgradeOk installOk
        dependencies).successful,
      d ∉ (auto_install_dependencies useConda pipFound pipUpgradeOk installOk
        dependencies).failed) ∧
    (∀ d ∈ dependencies,
      d ∈ (auto_install_dependencies useConda pipFound pipUpgradeOk installOk
        dependencies).successful ∨
      d ∈ (auto_install_dependencies useConda pipFound pipUpgradeOk installOk
        dependencies).failed) ∧
    (∀ d ∈ (auto_install_dependencies useConda pipFound pipUpgradeOk installOk
        dependencies).failed, d ∈ dependencies ∧ installOk d = false) ∧
    (∀ d ∈ (auto_install_dependencies useConda pipFound pipUpgradeOk installOk
        dependencies).successful, d ∈ dependencies ∧ installOk d = true) := by
  have hr : auto_install_dependencies useConda pipFound pipUpgradeOk installOk
      dependencies =
      { successful := dependencies.filter installOk
        failed := dependencies.filter fun d => !installOk d } := by
    by_cases hd : dependencies.isEmpty
    · rw [List.isEmpty_iff] at hd
      subst hd
      rcases h with h | ⟨h1, h2⟩ <;> simp [auto_install_dependencies]
    · rcases h with h | ⟨h1, h2⟩
      · simp [auto_install_dependencies, hd, h]
      · simp [auto_install_dependencies, hd, h1, h2]
  rw [hr]
  refine ⟨length_filter_pair installOk dependencies, ?_, ?_, ?_, ?_⟩
  · intro d hd hcontra
    have h1 := (List.mem_filter.mp hd).2
    have h2 := (List.mem_filter.mp hcontra).2
    simp at h2
    rw [h1] at h2
    exact absurd h2 (by decide)
  · intro d hd
    by_cases hp : installOk d
    · exact Or.inl (List.mem_filter.mpr ⟨hd, hp⟩)
    · exact Or.inr (List.mem_filter.mpr ⟨hd, by simp [hp]⟩)
  · intro d hd
    have h1 := List.mem_filter.mp hd
    refine ⟨h1.1, ?_⟩
    have := h1.2
    simpa using this
  · intro d hd
    have h1 := List.mem_filter.mp hd
    exact ⟨h1.1, h1.2⟩

/-- Witness for C4 (amended): the venv path with pip present and upgraded,
on the batch `["good", "bad"]` of which only `good` installs. -/
theorem auto_install_partitions_when_loop_reached_witness :
    (auto_install_dependencies false true true installOkW
        ["good", "bad"]).successful.length +
      (auto_install_dependencies false true true installOkW
        ["good", "bad"]).failed.length =
      (["good", "bad"] : List String).length :=
  (auto_install_partitions_when_loop_reached false true true installOkW
    ["good", "bad"] (Or.inr ⟨rfl, rfl⟩)).1

/-- C5: for a non-empty combined dependency list the written
`requirements.txt` is exactly the newline-joined, code-point-sorted,
duplicate-free union of the template dependencies and the additional
packages with a trailing newline; a line is present exactly for the
members of either list; and the concrete instance
`["a","b"] + ["b","c"]` yields exactly the lines a, b, c. -/
theorem requirements_sorted_dedup_union
    (templateDeps additionalPackages : List String)
    (h : (templateDeps ++ additionalPackages).isEmpty = false) :
    requirements_content templateDeps additionalPackages =
      some (String.intercalate "\n"
        (sortedSet (templateDeps ++ additionalPackages)) ++ "\n") ∧
    List.Sorted pyLe (sortedSet (templateDeps ++ additionalPackages)) ∧
    (sortedSet (templateDeps ++ additionalPackages)).Nodup ∧
    (∀ p, p ∈ sortedSet (templateDeps ++ additionalPackages) ↔
      p ∈ templateDeps ∨ p ∈ additionalPackages) ∧
    requirements_content ["a", "b"] ["b", "c"] = some "a\nb\nc\n" := by
  refine ⟨?_, ?_, ?_, ?_, ?_⟩
  · simp [requirements_content, h]
  · exact List.sorted_insertionSort pyLe _
  · exact ((List.perm_insertionSort pyLe _).symm).nodup (List.nodup_dedup _)
  · intro p
    simp only [sortedSet]
    rw [(List.perm_insertionSort pyLe _).mem_iff, List.mem_dedup, List.mem_append]
  · decide

/-- Witness for C5: the non-emptiness hypothesis and the concrete file
content at `["a","b"]` and `["b","c"]`. -/
theorem requirements_sorted_dedup_union_witness :
    requirements_content ["a", "b"] ["b", "c"] = some "a\nb\nc\n" :=
  (requirements_sorted_dedup_union ["a", "b"] ["b", "c"] (by decide)).2.2.2.2

/-- C6: a variable whose name contains `secret` or `key`
(case-insensitively) and whose value is one of the known placeholders is
written with a freshly generated value of length 50 drawn only from ASCII
letters, digits and `!@#$%^&*` — in particular the written value is never
the placeholder itself; every other variable is written unchanged; and the
`.env` text is exactly the header plus one `KEY=value` line per variable.
-/
theorem env_secret_placeholder_replaced
    (choice : Nat → Nat → Fin secretAlphabet.length)
    (env_vars : List (String × String)) (i : Nat) (key value : String)
    (hname : isSecretName key = true)
    (hph : placeholderValues.contains value = true) :
    (writtenEnvValue (choice i) key value).length = 50 ∧
    (∀ c ∈ (writtenEnvValue (choice i) key value).data, c ∈ secretAlphabet) ∧
    writtenEnvValue (choice i) key value ≠ value ∧
    (∀ k v, (isSecretName k && placeholderValues.contains v) = false →
      writtenEnvValue (choice i) k v = v) ∧
    generate_env_file choice env_vars =
      String.intercalate "\n" (["# Environment variables for the project", ""] ++
        env_vars.enum.map fun p =>
          p.2.1 ++ "=" ++ writtenEnvValue (choice p.1) p.2.1 p.2.2) ++ "\n" := by
  have hmemv : value ∈ placeholderValues := List.elem_iff.mp hph
  have hw : writtenEnvValue (choice i) key value =
      generate_secret_key (choice i) 50 := by
    simp [writtenEnvValue, hname, hmemv]
  have hlen : (writtenEnvValue (choice i) key value).length = 50 := by
    rw [hw]
    simp [generate_secret_key, String.length]
  refine ⟨hlen, ?_, ?_, ?_, rfl⟩
  · rw [hw]
    intro c hc
    simp only [generate_secret_key, List.mem_map] at hc
    obtain ⟨j, _, rfl⟩ := hc
    exact List.get_mem secretAlphabet _ _
  · intro heq
    have hvl := congrArg String.length heq
    rw [hlen] at hvl
    have hmem := hmemv
    simp only [placeholderValues, List.mem_cons, List.not_mem_nil, or_false] at hmem
    rcases hmem with rfl | rfl | rfl <;> exact absurd hvl (by decide)
  · intro k v hfalse
    simp only [writtenEnvValue, hfalse]
    simp

/-- Witness for C6: a `SECRET_KEY` variable carrying the placeholder
`your-secret-key-here`, with the fixed random source. -/
theorem env_secret_placeholder_replaced_witness :
    (writtenEnvValue (choiceZero 0) "SECRET_KEY" "your-secret-key-here").length = 50 ∧
    writtenEnvValue (choiceZero 0) "SECRET_KEY" "your-secret-key-here" ≠
      "your-secret-key-here" :=
  ⟨(env_secret_placeholder_replaced choiceZero
      [("SECRET_KEY", "your-secret-key-here")] 0 "SECRET_KEY"
      "your-secret-key-here" (by decide) (by decide)).1,
   (env_secret_placeholder_replaced choiceZero
      [("SECRET_KEY", "your-secret-key-here")] 0 "SECRET_KEY"
      "your-secret-key-here" (by decide) (by decide)).2.2.1⟩

/-- C8: `validate_packages` is a total function (it never raises); the
registry is consulted only at the qualifier-stripped, whitespace-stripped
name; any identifier whose lookup raised is classified valid; and with the
registry unreachable an entire batch — nonsensical names included — comes
back valid with nothing invalid. -/
theorem validate_packages_degrade_permissive (registry : String → LookupResult) :
    (∀ package, registry (stripVersionQualifier package) = LookupResult.failed →
      validate_single_package registry package = true) ∧
    (∀ reg2 : String → LookupResult, ∀ package,
      reg2 (stripVersionQualifier package) =
        registry (stripVersionQualifier package) →
      validate_single_package reg2 package =
        validate_single_package registry package) ∧
    ((∀ name, registry name = LookupResult.failed) →
      ∀ packages, validate_packages registry packages = (packages, [])) ∧
    stripVersionQualifier "real-pkg==1.2.3" = "real-pkg" ∧
    stripVersionQualifier " numpy >= 1.26 " = "numpy" := by
  refine ⟨?_, ?_, ?_, by decide, by decide⟩
  · intro package hfail
    simp [validate_single_package, hfail]
  · intro reg2 package hagree
    simp [validate_single_package, hagree]
  · intro hall packages
    have h1 : packages.filter (validate_single_package registry) = packages :=
      List.filter_eq_self.mpr fun a _ => by simp [validate_single_package, hall]
    have h2 : (packages.filter fun p => !validate_single_package registry p) = [] := by
      rw [List.filter_eq_nil_iff]
      intro a _
      simp [validate_single_package, hall]
    rw [validate_packages, h1, h2]

/-- Witness for C8: the unreachable-registry batch from the spec. -/
theorem validate_packages_degrade_permissive_witness :
    validate_packages registryDown ["real-pkg", "??invalid pkg name??"] =
      (["real-pkg", "??invalid pkg name??"], []) :=
  (validate_packages_degrade_permissive registryDown).2.2.1 (fun _ => rfl) _

/-- C10: `get_package_versions_realtime` is total (never raises); whenever
the registry query or the response parsing fails it returns exactly the
one-element list `["latest"]`; on success every returned entry is a
version owning at least one release file, the list is in descending
code-point order, and it carries at most `limit` elements. -/
theorem get_package_versions_realtime_spec (limit : Nat) :
    get_package_versions_realtime none limit = ["latest"] ∧
    (∀ releases : List (String × Nat),
      (get_package_versions_realtime (some releases) limit).length ≤ limit ∧
      List.Sorted pyGe (get_package_versions_realtime (some releases) limit) ∧
      ∀ v ∈ get_package_versions_realtime (some releases) limit,
        ∃ n, (v, n) ∈ releases ∧ n ≠ 0) := by
  refine ⟨rfl, fun releases => ⟨?_, ?_, ?_⟩⟩
  · simp only [get_package_versions_realtime, List.length_take]
    omega
  · simp only [get_package_versions_realtime]
    exact List.Pairwise.sublist (List.take_sublist _ _)
      (List.sorted_insertionSort pyGe _)
  · intro v hv
    simp only [get_package_versions_realtime] at hv
    have h1 := (List.take_sublist _ _).subset hv
    rw [(List.perm_insertionSort pyGe _).mem_iff] at h1
    obtain ⟨⟨v1, n⟩, he, rfl⟩ := List.mem_map.mp h1
    exact ⟨n, (List.mem_filter.mp he).1, by simpa using (List.mem_filter.mp he).2⟩

/-- Witness for C10: a failed query returns `["latest"]`; a parsed
response drops the file-less version 0.9.0, sorts descending and caps. -/
theorem get_package_versions_realtime_spec_witness :
    get_package_versions_realtime none 10 = ["latest"] ∧
    get_package_versions_realtime
      (some [("1.0.0", 2), ("0.9.0", 0), ("1.1.0", 1)]) 10 =
      ["1.1.0", "1.0.0"] :=
  ⟨(get_package_versions_realtime_spec 10).1, by decide⟩

/-- One `insertIfAbsent` step never disturbs the unique entry already
stored under a key. -/
theorem insertIfAbsent_filter_key (m : List (String × String)) (k v c lbl : String)
    (h : m.filter (fun e => e.1 == c) = [(c, lbl)]) :
    (insertIfAbsent m k v).filter (fun e => e.1 == c) = [(c, lbl)] := by
  unfold insertIfAbsent
  by_cases hany : m.any (fun e => e.1 == k) = true
  · rw [if_pos hany]
    exact h
  · rw [if_neg hany, List.filter_append, h]
    have hmem : (c, lbl) ∈ m := by
      have hx : (c, lbl) ∈ m.filter (fun e => e.1 == c) := by
        rw [h]
        exact List.mem_cons_self _ _
      exact (List.mem_filter.mp hx).1
    have hkc : ¬ (k = c) := by
      intro hkc
      subst hkc
      exact hany (List.any_eq_true.mpr ⟨(k, lbl), hmem, by simp⟩)
    simp [hkc]

/-- Folding `insertIfAbsent` over any later source keeps the unique entry
of an already-present key: the first source to report a version wins. -/
theorem foldl_insertIfAbsent_filter_key {β : Type} (f g : β → String)
    (l : List β) (m : List (String × String)) (c lbl : String)
    (h : m.filter (fun e => e.1 == c) = [(c, lbl)]) :
    (l.foldl (fun acc b => insertIfAbsent acc (f b) (g b)) m).filter
      (fun e => e.1 == c) = [(c, lbl)] := by
  induction l generalizing m with
  | nil => exact h
  | cons b t ih => exact ih _ (insertIfAbsent_filter_key m (f b) (g b) c lbl h)

/-- One `insertIfAbsent` step preserves distinctness of the keys. -/
theorem insertIfAbsent_keys_nodup (m : List (String × String)) (k v : String)
    (h : (m.map (fun e => e.1)).Nodup) :
    ((insertIfAbsent m k v).map (fun e => e.1)).Nodup := by
  unfold insertIfAbsent
  by_cases hany : m.any (fun e => e.1 == k) = true
  · rw [if_pos hany]
    exact h
  · rw [if_neg hany, List.map_append]
    simp only [List.map_cons, List.map_nil]
    rw [List.nodup_append]
    refine ⟨h, List.nodup_singleton _, ?_⟩
    intro a ha hb
    simp only [List.mem_singleton] at hb
    subst hb
    obtain ⟨e, hem, hek⟩ := List.mem_map.mp ha
    exact hany (List.any_eq_true.mpr ⟨e, hem, by simp [hek]⟩)

/-- Folding `insertIfAbsent` preserves distinctness of the keys. -/
theorem foldl_insertIfAbsent_keys_nodup {β : Type} (f g : β → String)
    (l : List β) (m : List (String × String))
    (h : (m.map (fun e => e.1)).Nodup) :
    ((l.foldl (fun acc b => insertIfAbsent acc (f b) (g b)) m).map
      (fun e => e.1)).Nodup := by
  induction l generalizing m with
  | nil => exact h
  | cons b t ih => exact ih _ (insertIfAbsent_keys_nodup m (f b) (g b) h)

/-- C7: `get_available_versions` de-duplicates by version string — the
keys of the built dict are distinct — and the current running interpreter,
inserted first, always wins the label for its version: for every host the
entries filtered at the current version are exactly the single
`(current system)` entry, so in particular when a conda environment also
reports 3.11.7 while the current interpreter is 3.11.7 there is exactly
one 3.11.7 entry, labeled as the current system interpreter. -/
theorem version_discovery_dedup_current_wins (h : VersionHost) :
    ((availableVersionsMap h).map (fun e => e.1)).Nodup ∧
    (availableVersionsMap h).filter (fun e => e.1 == h.current) =
      [(h.current, h.current ++ " (current system)")] ∧
    (∀ envName, h.current = "3.11.7" → ("3.11.7", envName) ∈ h.condaVersions →
      (availableVersionsMap h).filter (fun e => e.1 == "3.11.7") =
        [("3.11.7", "3.11.7 (current system)")]) := by
  have hbase : ([(h.current, h.current ++ " (current system)")].filter
      (fun e => e.1 == h.current)) =
      [(h.current, h.current ++ " (current system)")] := by simp
  have hbasenodup : (([(h.current, h.current ++ " (current system)")]).map
      (fun e => e.1)).Nodup := by simp
  have hfilter : (availableVersionsMap h).filter (fun e => e.1 == h.current) =
      [(h.current, h.current ++ " (current system)")] := by
    unfold availableVersionsMap
    by_cases hc : h.condaAvailable = true <;> by_cases hp : h.pyenvAvailable = true <;>
      simp only [hc, hp, if_true, if_false] <;>
      first
        | exact foldl_insertIfAbsent_filter_key _ _ _ _ _ _
            (foldl_insertIfAbsent_filter_key _ _ _ _ _ _
              (foldl_insertIfAbsent_filter_key _ _ _ _ _ _ hbase))
        | exact foldl_insertIfAbsent_filter_key _ _ _ _ _ _
            (foldl_insertIfAbsent_filter_key _ _ _ _ _ _ hbase)
        | exact foldl_insertIfAbsent_filter_key _ _ _ _ _ _ hbase
  have hnodup : ((availableVersionsMap h).map (fun e => e.1)).Nodup := by
    unfold availableVersionsMap
    by_cases hc : h.condaAvailable = true <;> by_cases hp : h.pyenvAvailable = true <;>
      simp only [hc, hp, if_true, if_false] <;>
      first
        | exact foldl_insertIfAbsent_keys_nodup _ _ _ _
            (foldl_insertIfAbsent_keys_nodup _ _ _ _
              (foldl_insertIfAbsent_keys_nodup _ _ _ _ hbasenodup))
        | exact foldl_insertIfAbsent_keys_nodup _ _ _ _
            (foldl_insertIfAbsent_keys_nodup _ _ _ _ hbasenodup)
        | exact foldl_insertIfAbsent_keys_nodup _ _ _ _ hbasenodup
  refine ⟨hnodup, hfilter, ?_⟩
  intro envName hcur _
  rw [hcur] at hfilter
  rw [hfilter]
  decide

/-- Witness for C7: the host whose current interpreter and conda
environment `ml-env` both report 3.11.7. -/
theorem version_discovery_dedup_current_wins_witness :
    (availableVersionsMap versionHostW).filter (fun e => e.1 == "3.11.7") =
      [("3.11.7", "3.11.7 (current system)")] :=
  (version_discovery_dedup_current_wins versionHostW).2.2 "ml-env" rfl
    (by decide)

/-- A successful environment step yields either the provisioning stage or
nothing — and nothing only when no environment was requested at all. -/
theorem envStep_ok_shape (cfg : CreateConfig) (host : CreateHost)
    (l : List Stage) (h : envStep cfg host = .ok l) :
    l = [Stage.envProvisioned] ∨
      (l = [] ∧ cfg.use_conda = false ∧ cfg.create_venv = false) := by
  unfold envStep at h
  by_cases huc : cfg.use_conda = true
  · rw [if_pos huc] at h
    by_cases he : host.condaEnvExists = true
    · rw [if_pos he] at h
      simp only [Except.ok.injEq] at h
      exact Or.inl h.symm
    · rw [if_neg he] at h
      by_cases hco : host.condaCreateOk = true
      · rw [if_pos hco] at h
        simp only [Except.ok.injEq] at h
        exact Or.inl h.symm
      · rw [if_neg hco] at h
        exact Except.noConfusion h
  · rw [if_neg huc] at h
    by_cases hcv : cfg.create_venv = true
    · rw [if_pos hcv] at h
      by_cases hv : host.venvOk = true
      · rw [if_pos hv] at h
        simp only [Except.ok.injEq] at h
        exact Or.inl h.symm
      · rw [if_neg hv] at h
        exact Except.noConfusion h
    · rw [if_neg hcv] at h
      simp only [Except.ok.injEq] at h
      exact Or.inr ⟨h.symm, by simpa using huc, by simpa using hcv⟩

/-- The environment step only ever raises the conda-creation or the
venv-creation error. -/
theorem envStep_error_shape (cfg : CreateConfig) (host : CreateHost)
    (e : CreateError) (h : envStep cfg host = .error e) :
    e = CreateError.condaCreateFailed ∨ e = CreateError.venvCreateFailed := by
  unfold envStep at h
  by_cases huc : cfg.use_conda = true
  · rw [if_pos huc] at h
    by_cases he : host.condaEnvExists = true
    · rw [if_pos he] at h
      exact Except.noConfusion h
    · rw [if_neg he] at h
      by_cases hco : host.condaCreateOk = true
      · rw [if_pos hco] at h
        exact Except.noConfusion h
      · rw [if_neg hco] at h
        simp only [Except.error.injEq] at h
        exact Or.inl h.symm
  · rw [if_neg huc] at h
    by_cases hcv : cfg.create_venv = true
    · rw [if_pos hcv] at h
      by_cases hv : host.venvOk = true
      · rw [if_pos hv] at h
        exact Except.noConfusion h
      · rw [if_neg hv] at h
        simp only [Except.error.injEq] at h
        exact Or.inr h.symm
    · rw [if_neg hcv] at h
      exact Except.noConfusion h

/-- Every successful `create` run has a found template, a successful
environment step, and the canonical trace assembled from them. -/
theorem create_ok_shape (cfg : CreateConfig) (host : CreateHost)
    (trace : List Stage) (h : create cfg host = .ok trace) :
    ∃ tmplDeps envStages,
      cfg.template = some tmplDeps ∧ envStep cfg host = .ok envStages ∧
      trace = [Stage.dirCreated] ++ envStages
        ++ [Stage.filesGenerated, Stage.requirementsWritten]
        ++ optStage (cfg.create_venv &&
            !(tmplDeps ++ cfg.additional_packages).isEmpty) .depsInstalled
        ++ optStage (cfg.create_venv && !cfg.dev_dependencies.isEmpty)
            .devDepsInstalled
        ++ optStage cfg.init_git .gitInitialized := by
  unfold create at h
  split at h
  · exact Except.noConfusion h
  · split at h
    · exact Except.noConfusion h
    · split at h
      · exact Except.noConfusion h
      · rename_i tmplDeps htmpl
        split at h
        · exact Except.noConfusion h
        · rename_i envStages henv
          simp only [Except.ok.injEq] at h
          exact ⟨tmplDeps, envStages, htmpl, henv, h.symm⟩

/-- The two directory-stage errors can only be raised when the target
directory did not already exist. -/
theorem create_dir_errors_need_missing_dir (cfg : CreateConfig)
    (host : CreateHost) :
    (create cfg host = .error CreateError.mkdirOSError →
      host.dirAlreadyExists = false) ∧
    (create cfg host = .error CreateError.dirNotCreated →
      host.dirAlreadyExists = false) := by
  by_cases hd : host.dirAlreadyExists = true
  · constructor <;> intro h
    · unfold create at h
      rw [if_neg (by simp [hd])] at h
      rw [if_neg (by simp [hd])] at h
      cases htmpl : cfg.template with
      | none =>
        rw [htmpl] at h
        exact absurd (Except.error.inj h) (by decide)
      | some tmplDeps =>
        rw [htmpl] at h
        cases henv : envStep cfg host with
        | error e0 =>
          rw [henv] at h
          have := Except.error.inj h
          subst this
          rcases envStep_error_shape cfg host _ henv with h1 | h1 <;>
            exact absurd h1 (by decide)
        | ok envStages =>
          rw [henv] at h
          exact Except.noConfusion h
    · unfold create at h
      rw [if_neg (by simp [hd])] at h
      rw [if_neg (by simp [hd])] at h
      cases htmpl : cfg.template with
      | none =>
        rw [htmpl] at h
        exact absurd (Except.error.inj h) (by decide)
      | some tmplDeps =>
        rw [htmpl] at h
        cases henv : envStep cfg host with
        | error e0 =>
          rw [henv] at h
          have := Except.error.inj h
          subst this
          rcases envStep_error_shape cfg host _ henv with h1 | h1 <;>
            exact absurd h1 (by decide)
        | ok envStages =>
          rw [henv] at h
          exact Except.noConfusion h
  · have hd0 : host.dirAlreadyExists = false := by simpa using hd
    exact ⟨fun _ => hd0, fun _ => hd0⟩

/-- C2: every successful run of `ProjectCreator.create` executes its
stages as a subsequence of the fixed order directory → environment →
files → requirements → dependency install → dev-dependency install →
repository init; the trace always starts with directory creation; an
installation stage occurs only in runs that also provisioned the
environment (which precedes it in the order); and repository
initialization, when present, is the very last stage.  The trace does not
depend on the per-package install outcomes at all — the install step of
the embedding is a total function — so this holds even when some package
installations failed. -/
theorem create_stage_order (cfg : CreateConfig) (host : CreateHost)
    (trace : List Stage) (h : create cfg host = .ok trace) :
    trace.Sublist canonicalStages ∧
    trace.head? = some Stage.dirCreated ∧
    ((Stage.depsInstalled ∈ trace ∨ Stage.devDepsInstalled ∈ trace) →
      Stage.envProvisioned ∈ trace) ∧
    (Stage.gitInitialized ∈ trace → trace.getLast? = some Stage.gitInitialized) := by
  obtain ⟨tmplDeps, envStages, htmpl, henv, htrace⟩ := create_ok_shape cfg host trace h
  subst htrace
  rcases envStep_ok_shape cfg host envStages henv with hes | ⟨hes, huc, hcv⟩
  · subst hes
    cases hb1 : (cfg.create_venv && !(tmplDeps ++ cfg.additional_packages).isEmpty) <;>
    cases hb2 : (cfg.create_venv && !cfg.dev_dependencies.isEmpty) <;>
    cases hb3 : cfg.init_git <;>
      decide
  · subst hes
    rw [hcv]
    simp only [Bool.false_and]
    cases hb3 : cfg.init_git <;> decide

/-- Witness for C2: the plain venv-backed run on `cfgW`/`hostW`, whose
trace contains the install stage and ends in repository initialization. -/
theorem create_stage_order_witness :
    ([Stage.dirCreated, Stage.envProvisioned, Stage.filesGenerated,
      Stage.requirementsWritten, Stage.depsInstalled,
      Stage.gitInitialized] : List Stage).Sublist canonicalStages ∧
    ([Stage.dirCreated, Stage.envProvisioned, Stage.filesGenerated,
      Stage.requirementsWritten, Stage.depsInstalled,
      Stage.gitInitialized] : List Stage).head? = some Stage.dirCreated ∧
    ((Stage.depsInstalled ∈ ([Stage.dirCreated, Stage.envProvisioned,
        Stage.filesGenerated, Stage.requirementsWritten, Stage.depsInstalled,
        Stage.gitInitialized] : List Stage) ∨
      Stage.devDepsInstalled ∈ ([Stage.dirCreated, Stage.envProvisioned,
        Stage.filesGenerated, Stage.requirementsWritten, Stage.depsInstalled,
        Stage.gitInitialized] : List Stage)) →
      Stage.envProvisioned ∈ ([Stage.dirCreated, Stage.envProvisioned,
        Stage.filesGenerated, Stage.requirementsWritten, Stage.depsInstalled,
        Stage.gitInitialized] : List Stage)) ∧
    (Stage.gitInitialized ∈ ([Stage.dirCreated, Stage.envProvisioned,
        Stage.filesGenerated, Stage.requirementsWritten, Stage.depsInstalled,
        Stage.gitInitialized] : List Stage) →
      ([Stage.dirCreated, Stage.envProvisioned, Stage.filesGenerated,
        Stage.requirementsWritten, Stage.depsInstalled,
        Stage.gitInitialized] : List Stage).getLast? =
        some Stage.gitInitialized) :=
  create_stage_order cfgW hostW _ rfl

/-- C9: when the target directory already exists, `create` cannot fail at
the directory-creation stage — the mkdir call (with `parents=True,
exist_ok=True`) is a no-op and the post-`mkdir` existence check passes —
so the run proceeds (any raised error belongs to a later stage, and every
successful run generates files into the reused directory); conversely a
directory-creation error is only ever raised when the path still does not
exist after the creation attempt. -/
theorem create_reuses_existing_directory (cfg : CreateConfig)
    (host : CreateHost) (hexists : host.dirAlreadyExists = true) :
    create cfg host ≠ .error CreateError.mkdirOSError ∧
    create cfg host ≠ .error CreateError.dirNotCreated ∧
    (∀ e, create cfg host = .error e →
      e = CreateError.templateNotFound ∨ e = CreateError.condaCreateFailed ∨
        e = CreateError.venvCreateFailed) ∧
    (∀ cfg2 host2, create cfg2 host2 = .error CreateError.dirNotCreated →
      host2.dirAlreadyExists = false) ∧
    (∀ trace, create cfg host = .ok trace → Stage.filesGenerated ∈ trace) := by
  refine ⟨?_, ?_, ?_, ?_, ?_⟩
  · intro h
    have := (create_dir_errors_need_missing_dir cfg host).1 h
    rw [hexists] at this
    exact absurd this (by decide)
  · intro h
    have := (create_dir_errors_need_missing_dir cfg host).2 h
    rw [hexists] at this
    exact absurd this (by decide)
  · intro e h
    unfold create at h
    rw [if_neg (by simp [hexists])] at h
    rw [if_neg (by simp [hexists])] at h
    cases htmpl : cfg.template with
    | none =>
      rw [htmpl] at h
      exact Or.inl (Except.error.inj h).symm
    | some tmplDeps =>
      rw [htmpl] at h
      cases henv : envStep cfg host with
      | error e0 =>
        rw [henv] at h
        have he0 := Except.error.inj h
        subst he0
        rcases envStep_error_shape cfg host _ henv with h1 | h1
        · exact Or.inr (Or.inl h1)
        · exact Or.inr (Or.inr h1)
      | ok envStages =>
        rw [henv] at h
        exact Except.noConfusion h
  · intro cfg2 host2 h
    exact (create_dir_errors_need_missing_dir cfg2 host2).2 h
  · intro trace h
    obtain ⟨tmplDeps, envStages, _, _, htrace⟩ := create_ok_shape cfg host trace h
    subst htrace
    simp [List.mem_append]

/-- Witness for C9: on `hostExisting` (directory present, `mkdir` would
not create anything) the pipeline still completes and generates files. -/
theorem create_reuses_existing_directory_witness :
    Stage.filesGenerated ∈ ([Stage.dirCreated, Stage.envProvisioned,
      Stage.filesGenerated, Stage.requirementsWritten, Stage.depsInstalled,
      Stage.gitInitialized] : List Stage) :=
  (create_reuses_existing_directory cfgW hostExisting rfl).2.2.2.2 _ rfl

end Inity
